import Mathlib

/-!
Shallow embedding of `crates/wasmito-addr2line/src/lib.rs`.

The crate is an addressing / enumeration / merge layer over two external
collaborators: the debug-info reader (`wasm_tools::addr2line::Addr2lineModules`)
and the structural parser (`wasmparser`).  Following the repository's spec,
those collaborators are out of scope and specified only at their interface,
so they are embedded as an abstract `ExternalReaders` record of functions; the
crate's own logic (`WasmModule::addr2line`, `WasmModule::mappings`, `WasmModule::files`,
`WasmModule::mappings_including_instruction_offsets`,
`WasmModule::compute_instruction_offsets`, `WasmModule::determine_code_section_size`,
`MappingWithInstructions::new`) is translated statement by statement.

Machine integers: `u64`/`u32`/`usize` values are `Nat`; the two additions the
source performs on `u64` (`code_section_start_offset + address + 1` and
`address + range_size`) are taken modulo `2 ^ 64`, the wrapping semantics of
the machine type.  The `usize -> u64` cast at lib.rs:166 is the identity (a
`usize` always fits in a `u64` on every supported platform).

The files `src/error.rs` and `src/instruction.rs` are not part of the sources;
their declarations are modelled from the spec where marked below.
-/

/-- One u64 wrap modulus: values of the machine type `u64` live below it. -/
def U64SIZE : Nat := 2 ^ 64

/-- Largest `u64` value, `u64::MAX`. -/
def U64MAX : Nat := 2 ^ 64 - 1

/-- Modelled from the spec: `src/instruction.rs` is missing from the sources.
Value types of local declarations (wasmparser's `ValType`, re-exported by the
missing module); the exact constructor inventory is irrelevant to the claims. -/
inductive ValType where
  | i32
  | i64
  | f32
  | f64
  | v128
  | refty
deriving DecidableEq, Repr

/-- A decoded operator as handed out by the external structural parser; kept
abstract (an opcode tag), since decoding is out of scope. -/
structure Operator where
  opcode : Nat
deriving DecidableEq, Repr

/-- Modelled from the spec: `src/instruction.rs` is missing from the sources.
A body operator carries the decoded operator (`BodyInstruction::from(&op)`). -/
structure BodyInstruction where
  op : Operator
deriving DecidableEq, Repr

/-- Modelled from the spec: `src/instruction.rs` is missing from the sources.
The spec says `instr` is one of `Local{count, value_type}` or
`Operator{decoded_opcode}`. -/
inductive Instruction where
  | Local : Nat → ValType → Instruction
  | Body : BodyInstruction → Instruction
deriving DecidableEq, Repr

/-- Modelled from the spec: constructor used at lib.rs:245. -/
def Instruction.new_local (count : Nat) (ty : ValType) : Instruction :=
  Instruction.Local count ty

/-- Modelled from the spec: constructor used at lib.rs:260. -/
def Instruction.new_body (b : BodyInstruction) : Instruction :=
  Instruction.Body b

/-- Conversion applied at lib.rs:260 (`BodyInstruction::from(&operator)`). -/
def BodyInstruction.fromOperator (op : Operator) : BodyInstruction :=
  BodyInstruction.mk op

/-- The raw location record returned by the external debug reader
(`addr2line::Location`): optional file, line, column. -/
structure Addr2LineLocation where
  file : Option String
  line : Option Nat
  column : Option Nat
deriving DecidableEq, Repr

/-- Location value type of lib.rs:52-61. -/
structure Location where
  file : Option String
  line : Option Nat
  column : Option Nat
deriving DecidableEq, Repr

/-- The `From<Addr2LineLocation> for Location` conversion of lib.rs:63-71:
fields are copied (`file` via `to_string`, the identity on the model). -/
def Location.ofAddr2line (v : Addr2LineLocation) : Location :=
  { file := v.file, line := v.line, column := v.column }

/-- Mapping value type of lib.rs:17-21 (`address`, `range_size` are `u64`). -/
structure Mapping where
  address : Nat
  range_size : Nat
  location : Location
deriving DecidableEq, Repr

/-- PositionedInstruction of lib.rs:24-27 (`address` is `usize`). -/
structure PositionedInstruction where
  address : Nat
  instr : Instruction
deriving DecidableEq, Repr

/-- A half-open `Range<u64>` as used for `address_range` (lib.rs:31). -/
structure AddrRange where
  start : Nat
  stop : Nat
deriving DecidableEq, Repr

/-- Rust's `Range::contains` for `Range<u64>`: `start <= x && x < end`. -/
def AddrRange.contains (r : AddrRange) (x : Nat) : Bool :=
  decide (r.start ≤ x) && decide (x < r.stop)

/-- MappingWithInstructions of lib.rs:30-34. -/
structure MappingWithInstructions where
  address_range : AddrRange
  instructions : List PositionedInstruction
  location : Location
deriving DecidableEq, Repr

/-- `MappingWithInstructions::new` (lib.rs:36-49): the range is
`address..(address + range_size)` with `u64` addition, the instruction list
starts empty and the location is carried over. -/
def MappingWithInstructions.new (m : Mapping) : MappingWithInstructions :=
  { address_range := { start := m.address, stop := (m.address + m.range_size) % U64SIZE }
    instructions := []
    location := m.location }

/-- Modelled from the spec: `src/error.rs` is missing from the sources.  The
variants and their call sites are fixed by their uses in lib.rs; the spec names
them `BinaryStructureError` (`Wasmparser`, `Binary`), `DebugContextUnavailable`
(`ContextCreation2`), `LocationNotFound` (`FindTextOffset2`),
`NumericConversionError` (`Cast`); `ContextCreation1` / `FindTextOffset1`
propagate reader failures unchanged. -/
inductive Error where
  | Wasmparser : String → Error
  | ContextCreation1 : String → Error
  | ContextCreation2 : String → Error
  | FindTextOffset1 : String → Error
  | FindTextOffset2 : String → Error
  | Cast : String → Error
  | Binary : String → Error
deriving DecidableEq, Repr

/-- Expansion of the internal source-position tag produced by the diagnostic
macro of lib.rs:75-79 at the call site on lib.rs:135 (column elided). -/
def locTag135 : String := "src/lib.rs:135"

/-- Source-position tag of the call site on lib.rs:141 (column elided). -/
def locTag141 : String := "src/lib.rs:141"

/-- Source-position tag of the call site on lib.rs:172 (column elided). -/
def locTag172 : String := "src/lib.rs:172"

/-- The locals reader of one function body
(`function_body.get_locals_reader()`): a declared count and, for each
iteration `i` of the loop at lib.rs:239-251, the reader's
`original_position()` before the `i`-th `read()` together with that read's
result `(count, local_type)`. -/
structure LocalsReader where
  count : Nat
  step : Nat → Nat × Except String (Nat × ValType)

/-- One function body payload: a fallible locals reader and a fallible
operators reader whose items (`into_iter_with_offsets`) are fallible
`(operator, offset)` pairs. -/
structure FunctionBody where
  get_locals_reader : Except String LocalsReader
  get_operators_reader : Except String (List (Except String (Operator × Nat)))

/-- The wasmparser payloads the source discriminates on: `CodeSectionStart`
(with `size` and byte `range`), `CodeSectionEntry` (a function body), and
everything else. -/
inductive Payload where
  | CodeSectionStart : Nat → Nat → Nat → Payload
  | CodeSectionEntry : FunctionBody → Payload
  | Other : Payload

/-- A queryable debug-info context as returned by the external reader:
`find_location` (single address) and `find_location_range` (anchor and length,
yielding `(offset, range_size, raw_location)` triples). -/
structure Addr2lineContext where
  find_location : Nat → Except String (Option Addr2LineLocation)
  find_location_range : Nat → Nat → Except String (List (Nat × Nat × Addr2LineLocation))

/-- The parsed debug-info module collection (`Addr2lineModules`): `context`
takes an address and the `code_section_relative` flag and yields either
nothing (no context covers the address) or a context paired with the
context-relative address. -/
structure Addr2lineModules where
  context : Nat → Bool → Except String (Option (Addr2lineContext × Nat))

/-- The two external collaborators, abstracted at their interface: the debug
reader's parse entry point and the structural parser's payload stream
(`wasmparser::Parser::parse_all`; `Parser::new(0)` and `Parser::default()`
parse identically). -/
structure ExternalReaders where
  a2l_parse : List Nat → Except String Addr2lineModules
  parse_all : List Nat → List (Except String Payload)

/-- The module: an owned byte buffer (lib.rs:92). -/
structure WasmModule where
  bytes : List Nat

/-- CodeSectionInformation of lib.rs:86-89. -/
structure CodeSectionInformation where
  start_offset : Nat
  size : Nat
deriving DecidableEq, Repr

/-- CodeSectionInformationOutcome of lib.rs:81-84. -/
inductive CodeSectionInformationOutcome where
  | NoCodeSection : CodeSectionInformationOutcome
  | Some : CodeSectionInformation → CodeSectionInformationOutcome
deriving DecidableEq, Repr

/-- Loop body of `determine_code_section_size` (lib.rs:278-288): scan the
payload stream, propagate the first payload error, stop at the first
`CodeSectionStart` with its `range.start` and `size`. -/
def findCodeSection : List (Except String Payload) → Except Error CodeSectionInformationOutcome
  | [] => Except.ok CodeSectionInformationOutcome.NoCodeSection
  | Except.error reason :: _ => Except.error (Error.Wasmparser reason)
  | Except.ok (Payload.CodeSectionStart size rangeStart _) :: _ =>
      Except.ok (CodeSectionInformationOutcome.Some
        { start_offset := rangeStart, size := size })
  | Except.ok _ :: rest => findCodeSection rest

/-- `WasmModule::determine_code_section_size` (lib.rs:272-291). -/
def WasmModule.determine_code_section_size (E : ExternalReaders) (m : WasmModule) :
    Except Error CodeSectionInformationOutcome :=
  findCodeSection (E.parse_all m.bytes)

/-- `WasmModule::addr2line` (lib.rs:126-144): parse the debug modules, obtain the
context and the context-relative address for `byte_address`, then look the
relative address (never the raw one) up in the line table. -/
def WasmModule.addr2line (E : ExternalReaders) (m : WasmModule) (byte_address : Nat) :
    Except Error Location :=
  match E.a2l_parse m.bytes with
  | Except.error reason => Except.error (Error.Wasmparser reason)
  | Except.ok a2l =>
    match a2l.context byte_address false with
    | Except.error reason => Except.error (Error.ContextCreation1 reason)
    | Except.ok none => Except.error (Error.ContextCreation2 locTag135)
    | Except.ok (some (ctx, text_relative_address)) =>
      match ctx.find_location text_relative_address with
      | Except.error reason => Except.error (Error.FindTextOffset1 reason)
      | Except.ok none => Except.error (Error.FindTextOffset2 locTag141)
      | Except.ok (some outcome) => Except.ok (Location.ofAddr2line outcome)

/-- `WasmModule::mappings` (lib.rs:151-191): parse, locate the code section
(absent section yields the empty list), anchor a context at the section start,
enumerate location ranges over the section, and emit each as a `Mapping` whose
absolute address is `code_section_start_offset + address + 1` in `u64`
arithmetic. -/
def WasmModule.mappings (E : ExternalReaders) (m : WasmModule) : Except Error (List Mapping) :=
  match E.a2l_parse m.bytes with
  | Except.error reason => Except.error (Error.Wasmparser reason)
  | Except.ok a2l =>
    match WasmModule.determine_code_section_size E m with
    | Except.error e => Except.error e
    | Except.ok CodeSectionInformationOutcome.NoCodeSection => Except.ok []
    | Except.ok (CodeSectionInformationOutcome.Some info) =>
      match a2l.context info.start_offset false with
      | Except.error reason => Except.error (Error.ContextCreation1 reason)
      | Except.ok none => Except.error (Error.ContextCreation2 locTag172)
      | Except.ok (some (ctx, text_relative_address)) =>
        match ctx.find_location_range text_relative_address info.size with
        | Except.error reason => Except.error (Error.FindTextOffset1 reason)
        | Except.ok ranges =>
          Except.ok (ranges.map fun r =>
            { address := (info.start_offset + r.1 + 1) % U64SIZE
              range_size := r.2.1
              location := Location.ofAddr2line r.2.2 })

/-- `WasmModule::files` (lib.rs:200-207): the mappings' `location.file` values,
`None` filtered out, collected into a set. -/
def WasmModule.files (E : ExternalReaders) (m : WasmModule) : Except Error (Finset String) :=
  match WasmModule.mappings E m with
  | Except.error e => Except.error e
  | Except.ok mappings =>
      Except.ok (mappings.filterMap fun mapping => mapping.location.file).toFinset

/-- Inner loop shared by both attribution passes (lib.rs:242-250 and
lib.rs:258-264): append the decoded item to every bucket whose
`address_range` contains its address. -/
def pushContaining (mappings : List MappingWithInstructions) (address : Nat)
    (instr : Instruction) : List MappingWithInstructions :=
  mappings.map fun mapping =>
    if mapping.address_range.contains address then
      { mapping with
          instructions := mapping.instructions ++ [{ address := address, instr := instr }] }
    else mapping

/-- The locals loop of lib.rs:239-251: `n` remaining iterations, `i` the next
iteration index; each iteration records the position, performs the fallible
read and attributes a `Local` instruction. -/
def processLocalsAux (step : Nat → Nat × Except String (Nat × ValType)) :
    Nat → Nat → List MappingWithInstructions →
    Except String (List MappingWithInstructions)
  | 0, _, mappings => Except.ok mappings
  | n + 1, i, mappings =>
    match (step i).2 with
    | Except.error e => Except.error e
    | Except.ok (count, local_type) =>
        processLocalsAux step n (i + 1)
          (pushContaining mappings (step i).1 (Instruction.new_local count local_type))

/-- The operators loop of lib.rs:253-265: each fallible `(operator, address)`
item is attributed as a body instruction. -/
def processOperators : List (Except String (Operator × Nat)) →
    List MappingWithInstructions → Except String (List MappingWithInstructions)
  | [], mappings => Except.ok mappings
  | Except.error e :: _, _ => Except.error e
  | Except.ok (op, address) :: rest, mappings =>
      processOperators rest
        (pushContaining mappings address
          (Instruction.new_body (BodyInstruction.fromOperator op)))

/-- One `CodeSectionEntry` payload (lib.rs:237-266): locals reader, locals
loop, operators reader, operators loop, each failure propagating. -/
def processBody (body : FunctionBody) (mappings : List MappingWithInstructions) :
    Except String (List MappingWithInstructions) :=
  match body.get_locals_reader with
  | Except.error e => Except.error e
  | Except.ok lr =>
    match processLocalsAux lr.step lr.count 0 mappings with
    | Except.error e => Except.error e
    | Except.ok ms =>
      match body.get_operators_reader with
      | Except.error e => Except.error e
      | Except.ok ops => processOperators ops ms

/-- The payload loop of lib.rs:235-267: every payload's error propagates
(`payload?`), code-section entries are processed, others skipped. -/
def processPayloads : List (Except String Payload) →
    List MappingWithInstructions → Except String (List MappingWithInstructions)
  | [], mappings => Except.ok mappings
  | Except.error e :: _, _ => Except.error e
  | Except.ok (Payload.CodeSectionEntry body) :: rest, mappings =>
    match processBody body mappings with
    | Except.error e => Except.error e
    | Except.ok ms => processPayloads rest ms
  | Except.ok _ :: rest, mappings => processPayloads rest mappings

/-- `WasmModule::compute_instruction_offsets` (lib.rs:227-270). -/
def WasmModule.compute_instruction_offsets (E : ExternalReaders) (m : WasmModule)
    (mappings : List MappingWithInstructions) :
    Except String (List MappingWithInstructions) :=
  processPayloads (E.parse_all m.bytes) mappings

/-- `WasmModule::mappings_including_instruction_offsets` (lib.rs:214-225): wrap
each enumerated mapping into an empty bucket, then run attribution; a
structural failure is wrapped as `Error::Binary`. -/
def WasmModule.mappings_including_instruction_offsets (E : ExternalReaders) (m : WasmModule) :
    Except Error (List MappingWithInstructions) :=
  match WasmModule.mappings E m with
  | Except.error e => Except.error e
  | Except.ok mappings =>
    match WasmModule.compute_instruction_offsets E m
        (mappings.map MappingWithInstructions.new) with
    | Except.error e => Except.error (Error.Binary e)
    | Except.ok out => Except.ok out

/-!
Concrete instances of the external collaborators, used to instantiate the
theorems below on closed inputs.
-/

/-- A raw location with all fields present. -/
def demoLoc1 : Addr2LineLocation :=
  { file := some "a.wat", line := some 3, column := some 1 }

/-- A raw location with no file. -/
def demoLoc2 : Addr2LineLocation :=
  { file := none, line := some 4, column := some 0 }

/-- A demo debug-info context: one line-table entry at relative address 3, and
a two-range enumeration anchored there. -/
def demoCtx : Addr2lineContext :=
  { find_location := fun a =>
      if a == 3 then Except.ok (some demoLoc1) else Except.ok none
    find_location_range := fun anchor len =>
      if anchor == 3 && len == 10 then
        Except.ok [(2, 4, demoLoc1), (6, 2, demoLoc2)]
      else Except.ok [] }

/-- Demo parsed debug modules: only raw address 8 (the demo code-section
start) is covered by a context, with context-relative address 3. -/
def demoModules : Addr2lineModules :=
  { context := fun addr _ =>
      if addr == 8 then Except.ok (some (demoCtx, 3)) else Except.ok none }

/-- A demo function body: one local declaration read at position 12, one
operator at position 14. -/
def demoBody : FunctionBody :=
  { get_locals_reader :=
      Except.ok { count := 1, step := fun _ => (12, Except.ok (1, ValType.i32)) }
    get_operators_reader := Except.ok [Except.ok ({ opcode := 32 }, 14)] }

/-- Demo external readers: code section at bytes 8..18 of size 10, one
function body. -/
def demoReaders : ExternalReaders :=
  { a2l_parse := fun _ => Except.ok demoModules
    parse_all := fun _ =>
      [Except.ok (Payload.CodeSectionStart 10 8 18),
       Except.ok (Payload.CodeSectionEntry demoBody)] }

/-- The byte buffer itself is opaque to the model; the demo readers ignore it. -/
def demoModule : WasmModule := { bytes := [0] }

/-- Demo readers for a module without a code section. -/
def noCodeReaders : ExternalReaders :=
  { a2l_parse := fun _ => Except.ok demoModules
    parse_all := fun _ => [Except.ok Payload.Other] }

/-- C1: for a module whose code section starts at `info.start_offset`, every
range `(offset, range_size, raw_location)` the debug reader enumerates is
emitted by `mappings()` as a `Mapping` with address
`code_section_start_offset + offset + 1` (u64 arithmetic), the reader's
`range_size`, and the converted `raw_location`. -/
theorem mappings_address_formula (E : ExternalReaders) (m : WasmModule)
    (a2l : Addr2lineModules) (info : CodeSectionInformation)
    (ctx : Addr2lineContext) (rel : Nat)
    (ranges : List (Nat × Nat × Addr2LineLocation))
    (hparse : E.a2l_parse m.bytes = Except.ok a2l)
    (hsec : WasmModule.determine_code_section_size E m =
      Except.ok (CodeSectionInformationOutcome.Some info))
    (hctx : a2l.context info.start_offset false = Except.ok (some (ctx, rel)))
    (hrange : ctx.find_location_range rel info.size = Except.ok ranges) :
    WasmModule.mappings E m = Except.ok (ranges.map fun r =>
      { address := (info.start_offset + r.1 + 1) % U64SIZE
        range_size := r.2.1
        location := Location.ofAddr2line r.2.2 }) := by
  unfold WasmModule.mappings
  simp only [hparse, hsec, hctx, hrange]

/-- Witness for C1: the demo readers enumerate ranges at offsets 2 and 6 of a
code section starting at 8, so `mappings()` yields addresses 11 and 15. -/
theorem mappings_address_formula_witness :
    WasmModule.mappings demoReaders demoModule = Except.ok
      [{ address := 11, range_size := 4, location := Location.ofAddr2line demoLoc1 },
       { address := 15, range_size := 2, location := Location.ofAddr2line demoLoc2 }] :=
  mappings_address_formula demoReaders demoModule demoModules
    { start_offset := 8, size := 10 } demoCtx 3
    [(2, 4, demoLoc1), (6, 2, demoLoc2)] rfl rfl rfl rfl

/-- C3: when the structural scan finds no code section, `mappings()` returns
the empty list and `files()` the empty set, both as successes. -/
theorem no_code_section_empty_results (E : ExternalReaders) (m : WasmModule)
    (a2l : Addr2lineModules)
    (hparse : E.a2l_parse m.bytes = Except.ok a2l)
    (hsec : WasmModule.determine_code_section_size E m =
      Except.ok CodeSectionInformationOutcome.NoCodeSection) :
    WasmModule.mappings E m = Except.ok [] ∧
    WasmModule.files E m = Except.ok ∅ := by
  have hm : WasmModule.mappings E m = Except.ok [] := by
    unfold WasmModule.mappings
    rw [hparse, hsec]
  refine ⟨hm, ?_⟩
  unfold WasmModule.files
  rw [hm]
  simp

/-- Witness for C3: the no-code-section demo readers yield empty results. -/
theorem no_code_section_empty_results_witness :
    WasmModule.mappings noCodeReaders demoModule = Except.ok [] ∧
    WasmModule.files noCodeReaders demoModule = Except.ok ∅ :=
  no_code_section_empty_results noCodeReaders demoModule demoModules rfl rfl

/-- C4: when the external reader covers neither address 0 nor `u64::MAX` with
a debug context — the spec's contract for any module with a code section —
`addr2line` fails at both sentinels with the `ContextCreation2` error, the
spec's `DebugContextUnavailable`. -/
theorem sentinel_addresses_fail (E : ExternalReaders) (m : WasmModule)
    (a2l : Addr2lineModules) (info : CodeSectionInformation)
    (hparse : E.a2l_parse m.bytes = Except.ok a2l)
    (hsec : WasmModule.determine_code_section_size E m =
      Except.ok (CodeSectionInformationOutcome.Some info))
    (h0 : a2l.context 0 false = Except.ok none)
    (hmax : a2l.context U64MAX false = Except.ok none) :
    WasmModule.addr2line E m 0 = Except.error (Error.ContextCreation2 locTag135) ∧
    WasmModule.addr2line E m U64MAX = Except.error (Error.ContextCreation2 locTag135) := by
  constructor
  · unfold WasmModule.addr2line
    simp only [hparse, h0]
  · unfold WasmModule.addr2line
    simp only [hparse, hmax]

/-- Witness for C4: the demo readers cover only address 8, so both sentinel
lookups fail with the context-unavailable error. -/
theorem sentinel_addresses_fail_witness :
    WasmModule.addr2line demoReaders demoModule 0 =
      Except.error (Error.ContextCreation2 locTag135) ∧
    WasmModule.addr2line demoReaders demoModule U64MAX =
      Except.error (Error.ContextCreation2 locTag135) :=
  sentinel_addresses_fail demoReaders demoModule demoModules
    { start_offset := 8, size := 10 } rfl rfl rfl rfl

/-- C5: whenever `mappings()` succeeds, `files()` succeeds and its result is
exactly the set of present `location.file` values of the mappings —
membership-characterised, hence deduplicated and order-independent. -/
theorem files_eq_mapping_file_set (E : ExternalReaders) (m : WasmModule)
    (ms : List Mapping)
    (hm : WasmModule.mappings E m = Except.ok ms) :
    ∃ s, WasmModule.files E m = Except.ok s ∧
      ∀ f, f ∈ s ↔ ∃ mp ∈ ms, mp.location.file = some f := by
  refine ⟨(ms.filterMap fun mp => mp.location.file).toFinset, ?_, ?_⟩
  · unfold WasmModule.files
    rw [hm]
  · intro f
    simp [List.mem_filterMap]

/-- Witness for C5 on the demo readers: only the first demo mapping carries a
file, so the file set is characterised by membership over those mappings. -/
theorem files_eq_mapping_file_set_witness :
    ∃ s, WasmModule.files demoReaders demoModule = Except.ok s ∧
      ∀ f, f ∈ s ↔ ∃ mp ∈
        [{ address := 11, range_size := 4, location := Location.ofAddr2line demoLoc1 },
         { address := 15, range_size := 2, location := Location.ofAddr2line demoLoc2 }],
        (Mapping.location mp).file = some f :=
  files_eq_mapping_file_set demoReaders demoModule
    [{ address := 11, range_size := 4, location := Location.ofAddr2line demoLoc1 },
     { address := 15, range_size := 2, location := Location.ofAddr2line demoLoc2 }] rfl

/-- C7: once the external reader hands back a context and a context-relative
address for the queried raw byte address, the outcome of `addr2line` is
entirely determined by the line-table lookup at that relative address: a
reader failure propagates, a missing entry yields the `FindTextOffset2`
error (the spec's `LocationNotFound`), and a present entry is converted and
returned. -/
theorem addr2line_uses_relative_address (E : ExternalReaders) (m : WasmModule)
    (a2l : Addr2lineModules) (byte_address : Nat)
    (ctx : Addr2lineContext) (rel : Nat)
    (hparse : E.a2l_parse m.bytes = Except.ok a2l)
    (hctx : a2l.context byte_address false = Except.ok (some (ctx, rel))) :
    (∀ s, ctx.find_location rel = Except.error s →
      WasmModule.addr2line E m byte_address = Except.error (Error.FindTextOffset1 s)) ∧
    (ctx.find_location rel = Except.ok none →
      WasmModule.addr2line E m byte_address = Except.error (Error.FindTextOffset2 locTag141)) ∧
    (∀ raw, ctx.find_location rel = Except.ok (some raw) →
      WasmModule.addr2line E m byte_address = Except.ok (Location.ofAddr2line raw)) := by
  refine ⟨?_, ?_, ?_⟩
  · intro s hs
    unfold WasmModule.addr2line
    simp only [hparse, hctx, hs]
  · intro hnone
    unfold WasmModule.addr2line
    simp only [hparse, hctx, hnone]
  · intro raw hraw
    unfold WasmModule.addr2line
    simp only [hparse, hctx, hraw]

/-- Witness for C7: querying raw address 8 on the demo readers resolves via
relative address 3 (where the demo line table has an entry), not via 8
(where it has none). -/
theorem addr2line_uses_relative_address_witness :
    WasmModule.addr2line demoReaders demoModule 8 =
      Except.ok (Location.ofAddr2line demoLoc1) :=
  (addr2line_uses_relative_address demoReaders demoModule demoModules 8
    demoCtx 3 rfl rfl).2.2 demoLoc1 rfl

/-!
Invariants of the attribution pass.  `ExtendsMWI a b` says bucket `b` is
bucket `a` with extra instructions appended, all of whose addresses the
bucket's range contains; the range and location are untouched.  Every step of
`compute_instruction_offsets` extends each bucket in this sense.
-/

/-- Bucket `b` extends bucket `a`: same range and location, instructions of
`a` a prefix of those of `b`, and every appended instruction's address lies in
the bucket's range. -/
def ExtendsMWI (a b : MappingWithInstructions) : Prop :=
  b.address_range = a.address_range ∧ b.location = a.location ∧
  ∃ tail, b.instructions = a.instructions ++ tail ∧
    ∀ pi ∈ tail, a.address_range.contains pi.address = true

/-- Pointwise bucket extension of equal-length lists. -/
def ExtendsAll (a b : List MappingWithInstructions) : Prop :=
  a.length = b.length ∧
  ∀ i (h : i < a.length) (h' : i < b.length), ExtendsMWI (a.get ⟨i, h⟩) (b.get ⟨i, h'⟩)

theorem extendsMWI_refl (a : MappingWithInstructions) : ExtendsMWI a a :=
  ⟨rfl, rfl, [], by simp, by simp⟩

theorem extendsMWI_trans {a b c : MappingWithInstructions}
    (hab : ExtendsMWI a b) (hbc : ExtendsMWI b c) : ExtendsMWI a c := by
  obtain ⟨hr1, hl1, t1, hi1, hc1⟩ := hab
  obtain ⟨hr2, hl2, t2, hi2, hc2⟩ := hbc
  refine ⟨hr2.trans hr1, hl2.trans hl1, t1 ++ t2, by rw [hi2, hi1, List.append_assoc], ?_⟩
  intro pi hpi
  rcases List.mem_append.mp hpi with h | h
  · exact hc1 pi h
  · have := hc2 pi h
    rwa [hr1] at this

theorem extendsAll_refl (a : List MappingWithInstructions) : ExtendsAll a a :=
  ⟨rfl, fun _ _ _ => extendsMWI_refl _⟩

theorem extendsAll_trans {a b c : List MappingWithInstructions}
    (hab : ExtendsAll a b) (hbc : ExtendsAll b c) : ExtendsAll a c := by
  obtain ⟨hlen1, h1⟩ := hab
  obtain ⟨hlen2, h2⟩ := hbc
  refine ⟨hlen1.trans hlen2, fun i h h' => ?_⟩
  exact extendsMWI_trans (h1 i h (hlen1 ▸ h)) (h2 i (hlen1 ▸ h) h')

theorem get_map_mwi (f : MappingWithInstructions → MappingWithInstructions)
    (l : List MappingWithInstructions) (i : Nat)
    (h : i < (l.map f).length) (h' : i < l.length) :
    (l.map f).get ⟨i, h⟩ = f (l.get ⟨i, h'⟩) := by
  simp

theorem pushContaining_get (ms : List MappingWithInstructions) (address : Nat)
    (instr : Instruction) (i : Nat) (h : i < ms.length)
    (h' : i < (pushContaining ms address instr).length) :
    (pushContaining ms address instr).get ⟨i, h'⟩ =
      if (ms.get ⟨i, h⟩).address_range.contains address then
        { ms.get ⟨i, h⟩ with instructions :=
            (ms.get ⟨i, h⟩).instructions ++ [{ address := address, instr := instr }] }
      else ms.get ⟨i, h⟩ := by
  simp [pushContaining]

theorem pushContaining_extendsAll (ms : List MappingWithInstructions)
    (address : Nat) (instr : Instruction) :
    ExtendsAll ms (pushContaining ms address instr) := by
  refine ⟨by simp [pushContaining], fun i h h' => ?_⟩
  rw [pushContaining_get ms address instr i h h']
  by_cases hc : (ms.get ⟨i, h⟩).address_range.contains address
  · rw [if_pos hc]
    exact ⟨rfl, rfl, [{ address := address, instr := instr }], rfl, by simpa using hc⟩
  · rw [if_neg hc]
    exact extendsMWI_refl _

theorem processLocalsAux_extendsAll
    (step : Nat → Nat × Except String (Nat × ValType)) :
    ∀ (n i : Nat) (ms out : List MappingWithInstructions),
    processLocalsAux step n i ms = Except.ok out → ExtendsAll ms out := by
  intro n
  induction n with
  | zero =>
    intro i ms out h
    cases h
    exact extendsAll_refl _
  | succ n ih =>
    intro i ms out h
    unfold processLocalsAux at h
    cases hstep : (step i).2 with
    | error e => rw [hstep] at h; cases h
    | ok val =>
      rw [hstep] at h
      exact extendsAll_trans (pushContaining_extendsAll ms (step i).1 _) (ih _ _ _ h)

theorem processOperators_extendsAll :
    ∀ (ops : List (Except String (Operator × Nat)))
      (ms out : List MappingWithInstructions),
    processOperators ops ms = Except.ok out → ExtendsAll ms out := by
  intro ops
  induction ops with
  | nil =>
    intro ms out h
    cases h
    exact extendsAll_refl _
  | cons hd rest ih =>
    intro ms out h
    cases hd with
    | error e => cases h
    | ok val =>
      exact extendsAll_trans (pushContaining_extendsAll ms val.2 _) (ih _ _ h)

theorem processBody_extendsAll (body : FunctionBody)
    (ms out : List MappingWithInstructions)
    (h : processBody body ms = Except.ok out) : ExtendsAll ms out := by
  unfold processBody at h
  cases hlr : body.get_locals_reader with
  | error e => simp only [hlr] at h; cases h
  | ok lr =>
    simp only [hlr] at h
    cases hloc : processLocalsAux lr.step lr.count 0 ms with
    | error e => simp only [hloc] at h; cases h
    | ok ms1 =>
      simp only [hloc] at h
      cases hops : body.get_operators_reader with
      | error e => simp only [hops] at h; cases h
      | ok ops =>
        simp only [hops] at h
        exact extendsAll_trans (processLocalsAux_extendsAll lr.step lr.count 0 ms ms1 hloc)
          (processOperators_extendsAll ops ms1 out h)

theorem processPayloads_extendsAll :
    ∀ (ps : List (Except String Payload)) (ms out : List MappingWithInstructions),
    processPayloads ps ms = Except.ok out → ExtendsAll ms out := by
  intro ps
  induction ps with
  | nil =>
    intro ms out h
    cases h
    exact extendsAll_refl _
  | cons hd rest ih =>
    intro ms out h
    cases hd with
    | error e => cases h
    | ok p =>
      cases p with
      | CodeSectionStart a b c => exact ih ms out h
      | Other => exact ih ms out h
      | CodeSectionEntry body =>
        unfold processPayloads at h
        cases hb : processBody body ms with
        | error e => rw [hb] at h; cases h
        | ok ms1 =>
          rw [hb] at h
          exact extendsAll_trans (processBody_extendsAll body ms ms1 hb) (ih ms1 out h)

theorem processPayloads_error_of_mem :
    ∀ (ps : List (Except String Payload)) (e : String),
    Except.error e ∈ ps → ∀ ms, ∃ e', processPayloads ps ms = Except.error e' := by
  intro ps
  induction ps with
  | nil =>
    intro e he ms
    cases he
  | cons hd rest ih =>
    intro e he ms
    cases hd with
    | error e0 => exact ⟨e0, rfl⟩
    | ok p =>
      have hmem : Except.error e ∈ rest := by
        rcases List.mem_cons.mp he with h | h
        · cases h
        · exact h
      cases p with
      | CodeSectionStart a b c => exact ih e hmem ms
      | Other => exact ih e hmem ms
      | CodeSectionEntry body =>
        show ∃ e', (match processBody body ms with
          | Except.error e => Except.error e
          | Except.ok ms1 => processPayloads rest ms1) = Except.error e'
        cases hb : processBody body ms with
        | error e1 => exact ⟨e1, rfl⟩
        | ok ms1 => exact ih e hmem ms1

/-- Boolean containment unpacked. -/
theorem contains_iff (r : AddrRange) (x : Nat) :
    r.contains x = true ↔ r.start ≤ x ∧ x < r.stop := by
  simp [AddrRange.contains]

/-- The two demo mappings enumerated by the demo readers. -/
def demoMappings : List Mapping :=
  [{ address := 11, range_size := 4, location := Location.ofAddr2line demoLoc1 },
   { address := 15, range_size := 2, location := Location.ofAddr2line demoLoc2 }]

/-- Enriched first demo bucket: the local declaration at 12 and the operator
at 14 both fall into `[11, 15)`. -/
def demoBucket1 : MappingWithInstructions :=
  { address_range := { start := 11, stop := 15 }
    instructions :=
      [{ address := 12, instr := Instruction.Local 1 ValType.i32 },
       { address := 14, instr := Instruction.Body { op := { opcode := 32 } } }]
    location := Location.ofAddr2line demoLoc1 }

/-- Enriched second demo bucket: no demo instruction falls into `[15, 17)`. -/
def demoBucket2 : MappingWithInstructions :=
  { address_range := { start := 15, stop := 17 }
    instructions := []
    location := Location.ofAddr2line demoLoc2 }

/-- C2: every instruction a successful
`mappings_including_instruction_offsets` places in a bucket has its address
inside that bucket's half-open range; and the attribution step appends a
decoded item to every bucket whose range contains its address, not just to a
single one. -/
theorem attribution_containment (E : ExternalReaders) (m : WasmModule)
    (out : List MappingWithInstructions)
    (hout : WasmModule.mappings_including_instruction_offsets E m = Except.ok out) :
    (∀ mwi ∈ out, ∀ pi ∈ mwi.instructions,
      mwi.address_range.start ≤ pi.address ∧ pi.address < mwi.address_range.stop) ∧
    (∀ (buckets : List MappingWithInstructions) (address : Nat) (instr : Instruction)
      (i : Nat) (h1 : i < buckets.length)
      (h2 : i < (pushContaining buckets address instr).length),
      (buckets.get ⟨i, h1⟩).address_range.contains address = true →
      ((pushContaining buckets address instr).get ⟨i, h2⟩).instructions =
        (buckets.get ⟨i, h1⟩).instructions ++ [{ address := address, instr := instr }]) := by
  constructor
  · unfold WasmModule.mappings_including_instruction_offsets at hout
    cases hms : WasmModule.mappings E m with
    | error e => simp only [hms] at hout; cases hout
    | ok ms =>
      simp only [hms] at hout
      cases hc : WasmModule.compute_instruction_offsets E m
          (ms.map MappingWithInstructions.new) with
      | error e => simp only [hc] at hout; cases hout
      | ok outc =>
        simp only [hc] at hout
        cases hout
        have hext : ExtendsAll (ms.map MappingWithInstructions.new) out :=
          processPayloads_extendsAll (E.parse_all m.bytes) _ _ hc
        obtain ⟨hlen, hall⟩ := hext
        intro mwi hmwi pi hpi
        obtain ⟨n, hn⟩ := List.mem_iff_get.mp hmwi
        have hlt : n.1 < (ms.map MappingWithInstructions.new).length := by
          rw [hlen]; exact n.2
        have hltm : n.1 < ms.length := by simpa using hlt
        have hx := hall n.1 hlt n.2
        have hbase : (ms.map MappingWithInstructions.new).get ⟨n.1, hlt⟩ =
            MappingWithInstructions.new (ms.get ⟨n.1, hltm⟩) := by simp
        rw [hbase] at hx
        obtain ⟨hr, _, tail, hins, hcont⟩ := hx
        have hn' : out.get ⟨n.1, n.2⟩ = mwi := hn
        rw [hn'] at hr hins
        have htail : mwi.instructions = tail := by
          simpa [MappingWithInstructions.new] using hins
        have hmem : pi ∈ tail := htail ▸ hpi
        have := (contains_iff _ _).mp (hcont pi hmem)
        rw [hr]
        exact this
  · intro buckets address instr i h1 h2 hc
    rw [pushContaining_get buckets address instr i h1 h2, if_pos hc]

/-- Witness for C2: the demo local declaration at address 12 is attributed to
the demo bucket `[11, 15)` that contains it. -/
theorem attribution_containment_witness :
    demoBucket1.address_range.start ≤ 12 ∧ 12 < demoBucket1.address_range.stop :=
  (attribution_containment demoReaders demoModule [demoBucket1, demoBucket2] rfl).1
    demoBucket1 (by decide)
    { address := 12, instr := Instruction.Local 1 ValType.i32 } (by decide)

/-- C6: if the structural parse of the module yields any error payload —
malformed code-section content — then once the buckets exist the attribution
pass aborts, and `mappings_including_instruction_offsets` returns a
binary-structure error (`Error.Binary`) rather than any partial sequence. -/
theorem malformed_code_aborts (E : ExternalReaders) (m : WasmModule)
    (ms : List Mapping) (e : String)
    (hms : WasmModule.mappings E m = Except.ok ms)
    (herr : Except.error e ∈ E.parse_all m.bytes) :
    ∃ e', WasmModule.mappings_including_instruction_offsets E m =
      Except.error (Error.Binary e') := by
  obtain ⟨e', he'⟩ := processPayloads_error_of_mem (E.parse_all m.bytes) e herr
    (ms.map MappingWithInstructions.new)
  refine ⟨e', ?_⟩
  unfold WasmModule.mappings_including_instruction_offsets
    WasmModule.compute_instruction_offsets
  simp only [hms, he']

/-- Demo readers whose payload stream breaks after the code-section header:
enumeration still succeeds, attribution must not. -/
def errReaders : ExternalReaders :=
  { a2l_parse := fun _ => Except.ok demoModules
    parse_all := fun _ =>
      [Except.ok (Payload.CodeSectionStart 10 8 18),
       Except.error "truncated function body"] }

/-- Witness for C6: with the demo error readers the enriched call fails with
a wrapped binary error and produces no bucket list. -/
theorem malformed_code_aborts_witness :
    ∃ e', WasmModule.mappings_including_instruction_offsets errReaders demoModule =
      Except.error (Error.Binary e') :=
  malformed_code_aborts errReaders demoModule demoMappings "truncated function body"
    rfl (by simp [errReaders])

/-- C10: a successful enriched enumeration has exactly one output bucket per
input mapping, in order; the bucket's range is the half-open u64 interval
from the mapping's address of the mapping's size, and its location is the
mapping's location — attribution computes only the instruction lists. -/
theorem enrichment_frame (E : ExternalReaders) (m : WasmModule)
    (ms : List Mapping) (out : List MappingWithInstructions)
    (hms : WasmModule.mappings E m = Except.ok ms)
    (hout : WasmModule.mappings_including_instruction_offsets E m = Except.ok out) :
    out.length = ms.length ∧
    ∀ i (h : i < ms.length) (h' : i < out.length),
      (out.get ⟨i, h'⟩).address_range =
        { start := (ms.get ⟨i, h⟩).address,
          stop := ((ms.get ⟨i, h⟩).address + (ms.get ⟨i, h⟩).range_size) % U64SIZE } ∧
      (out.get ⟨i, h'⟩).location = (ms.get ⟨i, h⟩).location := by
  unfold WasmModule.mappings_including_instruction_offsets at hout
  simp only [hms] at hout
  cases hc : WasmModule.compute_instruction_offsets E m
      (ms.map MappingWithInstructions.new) with
  | error e => simp only [hc] at hout; cases hout
  | ok outc =>
    simp only [hc] at hout
    cases hout
    have hext : ExtendsAll (ms.map MappingWithInstructions.new) out :=
      processPayloads_extendsAll (E.parse_all m.bytes) _ _ hc
    obtain ⟨hlen, hall⟩ := hext
    constructor
    · rw [← hlen]; simp
    · intro i h h'
      have hlt : i < (ms.map MappingWithInstructions.new).length := by simpa using h
      have hx := hall i hlt h'
      have hbase : (ms.map MappingWithInstructions.new).get ⟨i, hlt⟩ =
          MappingWithInstructions.new (ms.get ⟨i, h⟩) := by simp
      rw [hbase] at hx
      obtain ⟨hr, hl, _, _, _⟩ := hx
      exact ⟨hr, hl⟩

/-- Witness for C10: the first demo bucket carries exactly the first demo
mapping's range `[11, 11 + 4)` and location. -/
theorem enrichment_frame_witness :
    demoBucket1.address_range = { start := 11, stop := (11 + 4) % U64SIZE } ∧
    demoBucket1.location = Location.ofAddr2line demoLoc1 :=
  (enrichment_frame demoReaders demoModule demoMappings [demoBucket1, demoBucket2]
    rfl rfl).2 0 (by decide) (by decide)

/-- A chain property can be weakened using facts about the list's members. -/
theorem chain'_imp_of_mem {α : Type} {R S : α → α → Prop} :
    ∀ (l : List α), (∀ a b, a ∈ l → b ∈ l → R a b → S a b) →
    List.Chain' R l → List.Chain' S l := by
  intro l
  induction l with
  | nil => intro _ _; exact List.chain'_nil
  | cons a l ih =>
    intro hmem hch
    rw [List.chain'_cons'] at hch ⊢
    obtain ⟨h1, h2⟩ := hch
    refine ⟨?_, ih (fun x y hx hy =>
      hmem x y (List.mem_cons_of_mem a hx) (List.mem_cons_of_mem a hy)) h2⟩
    intro b hb
    exact hmem a b (List.mem_cons_self a l)
      (List.mem_cons_of_mem a (List.mem_of_mem_head? hb)) (h1 b hb)

/-- C9: when the debug reader enumerates its ranges in ascending,
non-overlapping order — its contract per the spec — and the absolute
addresses stay below 2^64, a successful `mappings()` preserves that order:
consecutive mappings satisfy `address + range_size ≤ next.address` and
`address < next.address`. -/
theorem mappings_preserve_order (E : ExternalReaders) (m : WasmModule)
    (a2l : Addr2lineModules) (info : CodeSectionInformation)
    (ctx : Addr2lineContext) (rel : Nat)
    (ranges : List (Nat × Nat × Addr2LineLocation)) (ms : List Mapping)
    (hparse : E.a2l_parse m.bytes = Except.ok a2l)
    (hsec : WasmModule.determine_code_section_size E m =
      Except.ok (CodeSectionInformationOutcome.Some info))
    (hctx : a2l.context info.start_offset false = Except.ok (some (ctx, rel)))
    (hrange : ctx.find_location_range rel info.size = Except.ok ranges)
    (hord : List.Chain' (fun a b : Nat × Nat × Addr2LineLocation =>
      a.1 + a.2.1 ≤ b.1 ∧ a.1 < b.1) ranges)
    (hbound : ∀ r ∈ ranges, info.start_offset + r.1 + 1 < U64SIZE)
    (hms : WasmModule.mappings E m = Except.ok ms) :
    List.Chain' (fun a b : Mapping =>
      a.address + a.range_size ≤ b.address ∧ a.address < b.address) ms := by
  have hcomp : WasmModule.mappings E m = Except.ok (ranges.map fun r =>
      { address := (info.start_offset + r.1 + 1) % U64SIZE
        range_size := r.2.1
        location := Location.ofAddr2line r.2.2 }) := by
    unfold WasmModule.mappings
    simp only [hparse, hsec, hctx, hrange]
  rw [hms] at hcomp
  have hmseq : ms = ranges.map fun r =>
      { address := (info.start_offset + r.1 + 1) % U64SIZE
        range_size := r.2.1
        location := Location.ofAddr2line r.2.2 } := by
    injection hcomp
  rw [hmseq, List.chain'_map]
  refine chain'_imp_of_mem ranges ?_ hord
  intro a b ha hb hR
  have hA := hbound a ha
  have hB := hbound b hb
  dsimp only
  rw [Nat.mod_eq_of_lt hA, Nat.mod_eq_of_lt hB]
  omega

/-- Witness for C9: the demo reader's ranges at offsets 2 (size 4) and 6
(size 2) are ordered, so the demo mappings at 11 and 15 are too. -/
theorem mappings_preserve_order_witness :
    List.Chain' (fun a b : Mapping =>
      a.address + a.range_size ≤ b.address ∧ a.address < b.address) demoMappings :=
  mappings_preserve_order demoReaders demoModule demoModules
    { start_offset := 8, size := 10 } demoCtx 3
    [(2, 4, demoLoc1), (6, 2, demoLoc2)] demoMappings
    rfl rfl rfl rfl (List.chain'_pair.mpr ⟨by norm_num, by norm_num⟩) (by decide) rfl

/-- A context whose range enumeration hands back the largest `u64` offset. -/
def overflowCtx : Addr2lineContext :=
  { find_location := fun _ => Except.ok none
    find_location_range := fun anchor len =>
      if anchor == 0 && len == 10 then Except.ok [(U64MAX, 5, demoLoc1)]
      else Except.ok [] }

/-- Parsed modules anchoring the overflow context at address 0. -/
def overflowModules : Addr2lineModules :=
  { context := fun addr _ =>
      if addr == 0 then Except.ok (some (overflowCtx, 0)) else Except.ok none }

/-- Readers with a code section at offset 0 and the overflowing enumeration. -/
def overflowReaders : ExternalReaders :=
  { a2l_parse := fun _ => Except.ok overflowModules
    parse_all := fun _ => [Except.ok (Payload.CodeSectionStart 10 0 10)] }

/-- C8 counterexample: with reader-supplied offset `u64::MAX` over a code
section starting at 0, the addition `code_section_start_offset + offset + 1`
reaches 2^64 — it overflows the `u64`, and the emitted mapping address 0 is
not the mathematical sum.  The additions are therefore not overflow-free for
arbitrary reader-supplied values. -/
theorem mappings_overflow_cex :
    WasmModule.mappings overflowReaders demoModule = Except.ok
      [{ address := 0, range_size := 5, location := Location.ofAddr2line demoLoc1 }] ∧
    U64SIZE ≤ 0 + U64MAX + 1 ∧ (0 : Nat) ≠ 0 + U64MAX + 1 := by
  refine ⟨rfl, ?_, ?_⟩ <;> norm_num [U64SIZE, U64MAX]

/-- C8 amended: every fallible operation returns its outcome as a value, and
the two additions stay exact — no overflow — whenever each reader-supplied
range satisfies `start_offset + offset + 1 + range_size < 2^64`, i.e. lies
within the u64 address space: under that bound every emitted address is the
plain sum `start_offset + offset + 1` and every bucket range is the plain
half-open interval of the mapping. -/
theorem no_overflow_in_bounds (E : ExternalReaders) (m : WasmModule)
    (a2l : Addr2lineModules) (info : CodeSectionInformation)
    (ctx : Addr2lineContext) (rel : Nat)
    (ranges : List (Nat × Nat × Addr2LineLocation))
    (hparse : E.a2l_parse m.bytes = Except.ok a2l)
    (hsec : WasmModule.determine_code_section_size E m =
      Except.ok (CodeSectionInformationOutcome.Some info))
    (hctx : a2l.context info.start_offset false = Except.ok (some (ctx, rel)))
    (hrange : ctx.find_location_range rel info.size = Except.ok ranges)
    (hbound : ∀ r ∈ ranges, info.start_offset + r.1 + 1 + r.2.1 < U64SIZE) :
    WasmModule.mappings E m = Except.ok (ranges.map fun r =>
      { address := info.start_offset + r.1 + 1
        range_size := r.2.1
        location := Location.ofAddr2line r.2.2 }) ∧
    ∀ r ∈ ranges,
      (MappingWithInstructions.new
        { address := info.start_offset + r.1 + 1
          range_size := r.2.1
          location := Location.ofAddr2line r.2.2 }).address_range =
      { start := info.start_offset + r.1 + 1
        stop := info.start_offset + r.1 + 1 + r.2.1 } := by
  have hmain : WasmModule.mappings E m = Except.ok (ranges.map fun r =>
      { address := (info.start_offset + r.1 + 1) % U64SIZE
        range_size := r.2.1
        location := Location.ofAddr2line r.2.2 }) := by
    unfold WasmModule.mappings
    simp only [hparse, hsec, hctx, hrange]
  constructor
  · rw [hmain]
    congr 1
    apply List.map_congr_left
    intro r hr
    have hb := hbound r hr
    have hlt : info.start_offset + r.1 + 1 < U64SIZE := by omega
    simp [Nat.mod_eq_of_lt hlt]
  · intro r hr
    have hb := hbound r hr
    simp [MappingWithInstructions.new, Nat.mod_eq_of_lt hb]

/-- Witness for the amended C8: the demo ranges stay far below 2^64, so the
demo addresses 11 and 15 are the exact sums and the first bucket range is
exactly `[11, 15)`. -/
theorem no_overflow_in_bounds_witness :
    WasmModule.mappings demoReaders demoModule = Except.ok
      [{ address := 8 + 2 + 1, range_size := 4, location := Location.ofAddr2line demoLoc1 },
       { address := 8 + 6 + 1, range_size := 2, location := Location.ofAddr2line demoLoc2 }] ∧
    (MappingWithInstructions.new
      { address := 8 + 2 + 1, range_size := 4,
        location := Location.ofAddr2line demoLoc1 }).address_range =
      { start := 11, stop := 15 } :=
  ⟨(no_overflow_in_bounds demoReaders demoModule demoModules
      { start_offset := 8, size := 10 } demoCtx 3
      [(2, 4, demoLoc1), (6, 2, demoLoc2)] rfl rfl rfl rfl (by decide)).1,
   (no_overflow_in_bounds demoReaders demoModule demoModules
      { start_offset := 8, size := 10 } demoCtx 3
      [(2, 4, demoLoc1), (6, 2, demoLoc2)] rfl rfl rfl rfl (by decide)).2
      (2, 4, demoLoc1) (by decide)⟩
